import Mathlib

/-!
Shallow embedding of the HackerOne→Discord relay bot (src/main.js) and proofs
of the specification claims about its polling/dedup/dispatch loop.

The JavaScript program is a single class `HackerOneDiscordBot`.  The parts the
claims are about are embedded below:

* the pure formatting helpers `getSeverityIcon`, `getSeverityColor`,
  `formatBounty` and `createReportEmbed`;
* the per-cycle loop `checkHacktivityReports` (fetch → read ledger snapshot →
  per-item skip / format / send / append, all inside one try/catch);
* the monitoring bootstrap `startHacktivityMonitoring` (read channel.txt,
  resolve the channel, run the first cycle, install the interval timer);
* the constructor's file initialisation (`initializeFiles`, which the
  constructor invokes before assigning `this.logFile` / `this.channelFile`).

External effects are passed in explicitly: the axios fetch outcome is an
`Except` value, the Discord send outcome is a boolean-valued environment
function, and the filesystem is explicit state.  Appends to the ledger file
are modelled as durable (persistence failure is outside the claims proved
here, except where a claim is about a missing file).
-/

/-- One `report` object of a feed node: `databaseId: _id`, `title`, `url` and
the optional `report_generated_content.hacktivity_summary`.  `databaseId` is
used through its string rendition (it is interpolated into the ledger line and
passed to `String.prototype.includes`). -/
structure Report where
  databaseId : String
  title : String
  url : String
  hacktivity_summary : Option String
deriving DecidableEq

/-- The `reporter` object of a feed node. -/
structure Reporter where
  username : String
deriving DecidableEq

/-- The `team` object of a feed node; `currency` may be absent in the feed
response, hence `Option`. -/
structure Team where
  name : String
  handle : String
  currency : Option String
deriving DecidableEq

/-- One node of the GraphQL response (`HacktivityDocument`). -/
structure Node where
  report : Report
  reporter : Reporter
  team : Team
  severity_rating : String
  total_awarded_amount : Int
deriving DecidableEq

/-- `reportId = node.report.databaseId` (src/main.js line 115). -/
def nodeIdOf (n : Node) : String := n.report.databaseId

/-- JavaScript `haystack.includes(needle)` on the character list level:
substring containment, where the empty needle is contained in everything
(exactly as `String.prototype.includes`). -/
def strContains : List Char → List Char → Bool
  | [], needle => needle.isEmpty
  | c :: rest, needle => needle.isPrefixOf (c :: rest) || strContains rest needle

/-- `log.includes(reportId)` (src/main.js line 117): substring containment of
`search` in `s`. -/
def jsIncludes (s search : String) : Bool := strContains s.data search.data

/-- `getSeverityIcon` (src/main.js lines 160-169): fixed five-entry table with
a `'-'` fallback for any other value (`icons[severity] || '-'`; every table
value is a non-empty string, so the fallback fires exactly on a missed key). -/
def getSeverityIcon (severity : String) : String :=
  if severity = "None" then ":white_circle: Info"
  else if severity = "Low" then ":green_circle: Low"
  else if severity = "Medium" then ":yellow_circle: Medium"
  else if severity = "High" then ":orange_circle: High"
  else if severity = "Critical" then ":red_circle: Critical"
  else "-"

/-- `getSeverityColor` (src/main.js lines 171-180): fixed five-entry table
with fallback colour `0x000000` (`colors[severity] || 0x000000`; every table
value is non-zero, so the fallback fires exactly on a missed key). -/
def getSeverityColor (severity : String) : Nat :=
  if severity = "Critical" then 0xFF0000
  else if severity = "High" then 0xFF6600
  else if severity = "Medium" then 0xFFFF00
  else if severity = "Low" then 0x00FF00
  else if severity = "None" then 0x808080
  else 0x000000

/-- ECMA-402 `IsWellFormedCurrencyCode`: exactly three ASCII letters.  This is
the only check `Intl.NumberFormat` performs on a currency code; a well-formed
code is accepted even when it is not an assigned ISO 4217 currency. -/
def isWellFormedCurrencyCode (c : String) : Bool :=
  c.data.length = 3 &&
    c.data.all (fun ch => ('A' ≤ ch && ch ≤ 'Z') || ('a' ≤ ch && ch ≤ 'z'))

/-- Models `new Intl.NumberFormat('en-US', \x7bstyle: 'currency', currency\x7d)
.format(amount)`.  Per ECMA-402 it throws a TypeError when the `currency`
option is undefined and a RangeError when the code is not well formed;
otherwise it renders some currency string.  No claim depends on the exact
rendered text (locale data), which is modelled here as the code followed by
the amount; the error condition is modelled exactly. -/
def intlCurrencyFormat (currency : Option String) (amount : Int) :
    Except String String :=
  match currency with
  | none => .error "TypeError: currency code is required with currency style"
  | some c =>
    if isWellFormedCurrencyCode c then .ok (c ++ " " ++ toString amount)
    else .error "RangeError: invalid currency code"

/-- `formatBounty` (src/main.js lines 182-187). -/
def formatBounty (amount : Int) (currency : Option String) :
    Except String String :=
  match intlCurrencyFormat currency amount with
  | .error e => .error e
  | .ok s => .ok ("💰 " ++ s)

/-- Whether `formatBounty` succeeds on this node's amount and currency. -/
def formatOk (n : Node) : Bool :=
  match formatBounty n.total_awarded_amount n.team.currency with
  | .ok _ => true
  | .error _ => false

/-- The bounty text `formatBounty` produces when it succeeds (irrelevant
placeholder otherwise). -/
def bountyText (n : Node) : String :=
  match formatBounty n.total_awarded_amount n.team.currency with
  | .ok s => s
  | .error _ => ""

/-- `report.report_generated_content?.hacktivity_summary || 'No summary'`
(src/main.js line 135): absent or empty summaries fall back to the literal
placeholder (both `undefined` and `''` are falsy). -/
def summaryText (r : Report) : String :=
  match r.hacktivity_summary with
  | none => "No summary"
  | some s => if s = "" then "No summary" else s

/-- The embed the bot sends for one node (discord.js `EmbedBuilder` with a
title, URL, description, colour and the two inline fields). -/
structure Embed where
  title : String
  url : String
  description : String
  color : Nat
  fields : List (String × String)
deriving DecidableEq

/-- The description string built in `createReportEmbed`
(src/main.js lines 140-144). -/
def embedDescription (node : Node) : String :=
  ":pencil: Disclosed by [@" ++ node.reporter.username ++
    "](https://hackerone.com/" ++ node.reporter.username ++ ") " ++
    "to [**" ++ node.team.name ++ "**](https://hackerone.com/" ++
    node.team.handle ++ ")\n\n" ++ summaryText node.report

/-- The embed record built for `node` once the bounty text is available. -/
def mkEmbed (node : Node) (bounty : String) : Embed :=
  { title := node.report.title
    url := node.report.url
    description := embedDescription node
    color := getSeverityColor node.severity_rating
    fields := [("Severity", getSeverityIcon node.severity_rating),
               ("Bounty", bounty)] }

/-- `createReportEmbed` (src/main.js lines 133-158): pure except that
`formatBounty` may throw, which propagates to the caller. -/
def createReportEmbed (node : Node) : Except String Embed :=
  match formatBounty node.total_awarded_amount node.team.currency with
  | .error e => .error e
  | .ok bounty => .ok (mkEmbed node bounty)

/-- One successful `channel.send` call: the destination channel, the report
identifier of the notified item, and the embed that was sent. -/
structure SendEvent where
  channelId : String
  nodeId : String
  embed : Embed
deriving DecidableEq

/-- The send event the happy path produces for `node`. -/
def sendEventOf (channelId : String) (node : Node) : SendEvent :=
  ⟨channelId, nodeIdOf node, mkEmbed node (bountyText node)⟩

/-- Observable outcome of one cycle: the successful sends in order, the
identifiers logged as skipped in order, the content of `log.txt` afterwards
(`none` = the file is absent), and whether the outer catch ran
(`console.error('Detailed error: ...')`). -/
structure CycleResult where
  sent : List SendEvent
  skipped : List String
  ledger : Option String
  errorLogged : Bool
deriving DecidableEq

/-- The ledger text appended by a cycle that dispatched the given identifiers
in order: one `fs.appendFile(logFile, reportId + '\n')` per send
(src/main.js line 125). -/
def ledgerAppend : List String → String
  | [] => ""
  | x :: rest => x ++ "\n" ++ ledgerAppend rest

/-- The per-item loop of `checkHacktivityReports` (src/main.js lines
114-127).  `snapshot` is the content of `log.txt` read once at line 112 (the
membership check uses it for the whole cycle); `ledger` is the actual file
content, which the appends extend.  `sendOk` tells whether `channel.send`
resolves for a given node; a rejected send, like a formatting throw, escapes
to the outer catch, which ends the cycle. -/
def processNodes (channelId snapshot : String) (sendOk : Node → Bool)
    (nodes : List Node) (ledger : String) : CycleResult :=
  match nodes with
  | [] => ⟨[], [], some ledger, false⟩
  | node :: rest =>
    if jsIncludes snapshot (nodeIdOf node) then
      let r := processNodes channelId snapshot sendOk rest ledger
      { r with skipped := nodeIdOf node :: r.skipped }
    else
      match createReportEmbed node with
      | .error _ => ⟨[], [], some ledger, true⟩
      | .ok embed =>
        if sendOk node then
          let r := processNodes channelId snapshot sendOk rest
            (ledger ++ nodeIdOf node ++ "\n")
          { r with sent := ⟨channelId, nodeIdOf node, embed⟩ :: r.sent }
        else ⟨[], [], some ledger, true⟩

/-- `checkHacktivityReports` (src/main.js lines 66-131).  `fetchResult` is the
axios outcome; `ledgerFile` is the content of `log.txt` (`none` = absent, in
which case `fs.readFile` rejects).  Every failure lands in the single outer
catch, which logs and returns. -/
def checkHacktivityReports (channelId : String)
    (fetchResult : Except String (List Node)) (ledgerFile : Option String)
    (sendOk : Node → Bool) : CycleResult :=
  match fetchResult with
  | .error _ => ⟨[], [], ledgerFile, true⟩
  | .ok nodes =>
    match ledgerFile with
    | none => ⟨[], [], none, true⟩
    | some snapshot => processNodes channelId snapshot sendOk nodes snapshot

/-- The identifiers of the successfully sent items of a cycle, in dispatch
order. -/
def sentIds (r : CycleResult) : List String := r.sent.map (fun e => e.nodeId)

/-- The novel items of a batch: those whose identifier the snapshot does not
contain as a substring. -/
def novelFilter (snapshot : String) (nodes : List Node) : List Node :=
  nodes.filter (fun n => !jsIncludes snapshot (nodeIdOf n))

/-- The identifiers logged as skipped: the items whose identifier the
snapshot contains as a substring. -/
def skippedIds (snapshot : String) (nodes : List Node) : List String :=
  (nodes.filter (fun n => jsIncludes snapshot (nodeIdOf n))).map nodeIdOf

/-- Outcome of `startHacktivityMonitoring`: whether the interval timer was
installed (the loop runs), the first cycle's result if one ran, and whether
`console.error` was called during setup. -/
structure MonitorResult where
  monitoringStarted : Bool
  initialCycle : Option CycleResult
  errorLogged : Bool

/-- `startHacktivityMonitoring` (src/main.js lines 46-64).
`channelFileContent` is the content of `channel.txt` (`none` = absent, so
`fs.readFile` rejects and the catch logs `'Monitoring setup error'` once and
returns — the interval is never installed).  `channelInCache` models
`this.client.channels.cache.get`. -/
def startHacktivityMonitoring (channelFileContent : Option String)
    (channelInCache : String → Bool)
    (fetchResult : Except String (List Node)) (ledgerFile : Option String)
    (sendOk : Node → Bool) : MonitorResult :=
  match channelFileContent with
  | none => ⟨false, none, true⟩
  | some channelId =>
    if channelInCache channelId then
      ⟨true, some (checkHacktivityReports channelId fetchResult ledgerFile
        sendOk), false⟩
    else ⟨false, none, true⟩

/-- The sends issued by the monitoring bootstrap's first cycle (none when
monitoring never started). -/
def monitorSends (m : MonitorResult) : List SendEvent :=
  match m.initialCycle with
  | none => []
  | some r => r.sent

/-- A filesystem: path → content, `none` = file absent. -/
structure FileSys where
  files : String → Option String

/-- `path.join(process.cwd(), 'log.txt')` (src/main.js line 18). -/
def logPath : String := "log.txt"

/-- `path.join(process.cwd(), 'channel.txt')` (src/main.js line 19). -/
def channelPath : String := "channel.txt"

/-- `fs.access(p)` resolves: the path argument must be defined (an undefined
path rejects with `ERR_INVALID_ARG_TYPE` regardless of the filesystem) and
the file must exist. -/
def fsAccessOk (fs : FileSys) (p : Option String) : Bool :=
  match p with
  | none => false
  | some q => (fs.files q).isSome

/-- `fs.writeFile(p, content)`: fails on an undefined path, otherwise creates
or truncates the file to `content`. -/
def fsWriteFile (fs : FileSys) (p : Option String) (content : String) :
    Option FileSys :=
  match p with
  | none => none
  | some q => some ⟨fun r => if r = q then some content else fs.files r⟩

/-- Outcome of `initializeFiles`: the filesystem afterwards, whether
`'Log file created'` was logged, whether `'Channel file not found ...'` was
logged, and whether the async call rejected without a handler. -/
structure InitResult where
  fs : FileSys
  logCreatedLogged : Bool
  channelMissingLogged : Bool
  crashed : Bool

/-- `initializeFiles` (src/main.js lines 189-204), parameterised by the value
of `this.logFile` observed at the first `fs.access` call (evaluated
synchronously when the constructor invokes the method) and the values of
`this.logFile` / `this.channelFile` observed by the code that resumes after
the first `await` (by which time the constructor's assignments at lines 18-19
have run). -/
def initFiles (logFileAtCall logFileAtResume channelFileAtResume :
    Option String) (fs0 : FileSys) : InitResult :=
  if fsAccessOk fs0 logFileAtCall then
    ⟨fs0, false, !fsAccessOk fs0 channelFileAtResume, false⟩
  else
    match fsWriteFile fs0 logFileAtResume "" with
    | none => ⟨fs0, false, false, true⟩
    | some fs1 => ⟨fs1, true, !fsAccessOk fs1 channelFileAtResume, false⟩

/-- The constructor's file initialisation (src/main.js lines 17-19): it calls
`this.initializeFiles()` at line 17, *before* `this.logFile` and
`this.channelFile` are assigned at lines 18-19.  The first `fs.access`
therefore receives `undefined`, while the continuation after the first
`await` (the catch block and the channel-file check) observes the assigned
paths. -/
def constructorInit (fs : FileSys) : InitResult :=
  initFiles none (some logPath) (some channelPath) fs

/-- Number of newline characters, i.e. the number of complete
identifier lines of a well-formed ledger text. -/
def lineCount (s : String) : Nat := s.data.count '\n'

/-- The splitting engine behind `ledgerEntries`: returns the first line and
the list of the remaining lines of a character list. -/
def splitLinesAux : List Char → List Char × List (List Char)
  | [] => ([], [])
  | c :: rest =>
    if c = '\n' then ([], (splitLinesAux rest).1 :: (splitLinesAux rest).2)
    else (c :: (splitLinesAux rest).1, (splitLinesAux rest).2)

/-- The identifiers recorded in a ledger text: its non-empty
newline-separated lines (`log.txt` holds one identifier per line). -/
def ledgerEntries (s : String) : List String :=
  let (h, t) := splitLinesAux s.data
  ((h :: t).map (fun l => String.mk l)).filter (fun e => e ≠ "")

/-! ## Sample feed data for witnesses and counterexamples -/

/-- A report with identifier `A`. -/
def repA : Report :=
  ⟨"A", "Report A", "https://hackerone.com/reports/1", some "Sum A"⟩

/-- A report with identifier `B`. -/
def repB : Report :=
  ⟨"B", "Report B", "https://hackerone.com/reports/2", none⟩

/-- A report with identifier `C`. -/
def repC : Report :=
  ⟨"C", "Report C", "https://hackerone.com/reports/3", some ""⟩

/-- A team whose currency code is the ordinary `USD`. -/
def teamUSD : Team := ⟨"Acme", "acme", some "USD"⟩

/-- A team whose currency code is `ZZZ`: well formed per ECMA-402 (three
ASCII letters) but not an assigned ISO 4217 currency. -/
def teamZZZ : Team := ⟨"Zeta", "zeta", some "ZZZ"⟩

/-- A team whose currency code is absent. -/
def teamNoCur : Team := ⟨"Nocur", "nocur", none⟩

/-- Feed node `A` (novel-friendly, valid currency). -/
def nodeA : Node := ⟨repA, ⟨"alice"⟩, teamUSD, "High", 500⟩

/-- Feed node `B`. -/
def nodeB : Node := ⟨repB, ⟨"bob"⟩, teamUSD, "Low", 0⟩

/-- Feed node `C`. -/
def nodeC : Node := ⟨repC, ⟨"carol"⟩, teamUSD, "Critical", 1000⟩

/-- A node whose team currency is well formed but unrecognized (`ZZZ`). -/
def nodeZZZ : Node :=
  ⟨⟨"Z", "Report Z", "https://hackerone.com/reports/9", none⟩,
   ⟨"zoe"⟩, teamZZZ, "Medium", 250⟩

/-- A node whose team currency is missing. -/
def nodeNoCur : Node :=
  ⟨⟨"N", "Report N", "https://hackerone.com/reports/8", none⟩,
   ⟨"nina"⟩, teamNoCur, "None", 0⟩

/-- A node whose report identifier is the empty string. -/
def nodeEmptyId : Node :=
  ⟨⟨"", "Report E", "https://hackerone.com/reports/7", none⟩,
   ⟨"eve"⟩, teamUSD, "Low", 10⟩

/-- A node whose identifier `23` is a proper substring of the recorded
identifier `1234` but is itself recorded nowhere. -/
def nodeSub : Node :=
  ⟨⟨"23", "Report S", "https://hackerone.com/reports/6", none⟩,
   ⟨"sam"⟩, teamUSD, "Medium", 50⟩

/-- Send environment in which every `channel.send` resolves. -/
def sendAll : Node → Bool := fun _ => true

/-- Send environment in which the send for report `B` rejects and every
other send resolves. -/
def sendFailB : Node → Bool := fun n => !(nodeIdOf n == "B")

/-- Send environment in which the send for report `A` rejects and every
other send resolves. -/
def sendFailA : Node → Bool := fun n => !(nodeIdOf n == "A")

/-- A filesystem in which `log.txt` already holds the entry `123`. -/
def fsWithLedger : FileSys :=
  ⟨fun p => if p = logPath then some "123\n" else none⟩

/-- A filesystem with no files at all (first run). -/
def fsBlank : FileSys := ⟨fun _ => none⟩

/-! ## Helper lemmas -/

/-- A list that starts the haystack is contained in it. -/
theorem strContains_of_isPrefixOf (l n : List Char) (h : n.isPrefixOf l = true) :
    strContains l n = true := by
  cases l with
  | nil =>
    cases n with
    | nil => rfl
    | cons c cs => simp [List.isPrefixOf] at h
  | cons c rest => simp [strContains, h]

/-- Containment is preserved when the haystack grows at the front. -/
theorem strContains_cons (c : Char) (rest n : List Char)
    (h : strContains rest n = true) : strContains (c :: rest) n = true := by
  simp [strContains, h]

/-- The pieces `splitLinesAux` produces: the first line starts the input and
every later line occurs inside it. -/
theorem splitLinesAux_spec (l : List Char) :
    (splitLinesAux l).1.isPrefixOf l = true ∧
      ∀ p ∈ (splitLinesAux l).2, strContains l p = true := by
  induction l with
  | nil => exact ⟨rfl, by simp [splitLinesAux]⟩
  | cons c rest ih =>
    obtain ⟨ih1, ih2⟩ := ih
    by_cases hc : c = '\n'
    · refine ⟨?_, ?_⟩
      · simp [splitLinesAux, hc, List.isPrefixOf]
      · intro p hp
        have hsnd : (splitLinesAux (c :: rest)).2 =
            (splitLinesAux rest).1 :: (splitLinesAux rest).2 := by
          simp [splitLinesAux, hc]
        rw [hsnd] at hp
        rcases List.mem_cons.mp hp with hp1 | hp1
        · exact strContains_cons _ _ _
            (strContains_of_isPrefixOf _ _ (hp1 ▸ ih1))
        · exact strContains_cons _ _ _ (ih2 p hp1)
    · refine ⟨?_, ?_⟩
      · simp [splitLinesAux, hc, List.isPrefixOf, ih1]
      · intro p hp
        have hsnd : (splitLinesAux (c :: rest)).2 = (splitLinesAux rest).2 := by
          simp [splitLinesAux, hc]
        rw [hsnd] at hp
        exact strContains_cons _ _ _ (ih2 p hp)

/-- Every identifier recorded as a line of the ledger text is found by the
substring check the code uses. -/
theorem jsIncludes_of_mem_ledgerEntries (s x : String)
    (hx : x ∈ ledgerEntries s) : jsIncludes s x = true := by
  unfold ledgerEntries at hx
  obtain ⟨hmem, _⟩ := List.mem_filter.mp hx
  obtain ⟨l, hl, hlx⟩ := List.mem_map.mp hmem
  obtain ⟨h1, h2⟩ := splitLinesAux_spec s.data
  have hdata : x.data = l := by rw [← hlx]
  rcases List.mem_cons.mp hl with hl1 | hl1
  · rw [jsIncludes, hdata, hl1]
    exact strContains_of_isPrefixOf _ _ h1
  · rw [jsIncludes, hdata]
    exact h2 l hl1

/-- An empty ledger snapshot contains no non-empty identifier. -/
theorem jsIncludes_empty (s : String) (h : s ≠ "") : jsIncludes "" s = false := by
  cases hsd : s.data with
  | nil =>
    exact absurd (by cases s with
      | mk d => simp at hsd; simp [hsd]) h
  | cons c cs => simp [jsIncludes, strContains, hsd]

/-- `formatBounty` success determines `createReportEmbed`'s value. -/
theorem createReportEmbed_ok (n : Node) (h : formatOk n = true) :
    createReportEmbed n = .ok (mkEmbed n (bountyText n)) := by
  cases hfb : formatBounty n.total_awarded_amount n.team.currency with
  | error e => simp [formatOk, hfb] at h
  | ok s => simp [createReportEmbed, bountyText, hfb]

/-- `formatBounty` failure makes `createReportEmbed` throw. -/
theorem createReportEmbed_err (n : Node) (h : formatOk n = false) :
    ∃ e, createReportEmbed n = .error e := by
  cases hfb : formatBounty n.total_awarded_amount n.team.currency with
  | error e => exact ⟨e, by simp [createReportEmbed, hfb]⟩
  | ok s => simp [formatOk, hfb] at h

/-- A node whose currency is absent or not well formed fails formatting. -/
theorem formatOk_false_of_badCurrency (n : Node)
    (h : ∀ c, n.team.currency = some c → isWellFormedCurrencyCode c = false) :
    formatOk n = false := by
  cases hc : n.team.currency with
  | none => simp [formatOk, formatBounty, intlCurrencyFormat, hc]
  | some c => simp [formatOk, formatBounty, intlCurrencyFormat, hc, h c hc]

/-- Happy-path characterisation of the per-item loop: when every novel item
formats and every send resolves, the loop sends exactly the novel items in
fetched order, logs exactly the already-seen items as skipped, appends
exactly the sent identifiers in order, and hits no error. -/
theorem processNodes_ok_eq (cid snapshot : String) (sendOk : Node → Bool)
    (nodes : List Node)
    (hf : ∀ n ∈ nodes, jsIncludes snapshot (nodeIdOf n) = false →
      formatOk n = true)
    (hs : ∀ n ∈ nodes, sendOk n = true) :
    ∀ ledger : String,
      processNodes cid snapshot sendOk nodes ledger =
        ⟨(novelFilter snapshot nodes).map (sendEventOf cid),
         skippedIds snapshot nodes,
         some (ledger ++
           ledgerAppend ((novelFilter snapshot nodes).map nodeIdOf)),
         false⟩ := by
  induction nodes with
  | nil =>
    intro ledger
    simp [processNodes, novelFilter, skippedIds, ledgerAppend]
  | cons node rest ih =>
    intro ledger
    have hf' : ∀ n ∈ rest, jsIncludes snapshot (nodeIdOf n) = false →
        formatOk n = true := fun n hn => hf n (List.mem_cons_of_mem _ hn)
    have hs' : ∀ n ∈ rest, sendOk n = true :=
      fun n hn => hs n (List.mem_cons_of_mem _ hn)
    cases hj : jsIncludes snapshot (nodeIdOf node) with
    | true =>
      simp only [processNodes, hj, if_true]
      rw [ih hf' hs' ledger]
      simp [novelFilter, skippedIds, List.filter_cons, hj]
    | false =>
      have hfmt : formatOk node = true := hf node (List.mem_cons_self _ _) hj
      have hok := createReportEmbed_ok node hfmt
      have hsend : sendOk node = true := hs node (List.mem_cons_self _ _)
      simp only [processNodes, hj, hok, hsend, Bool.false_eq_true, if_false,
        if_true]
      rw [ih hf' hs']
      simp [novelFilter, skippedIds, List.filter_cons, hj, sendEventOf,
        ledgerAppend, String.append_assoc]

/-- Abort characterisation of the per-item loop: if the batch is
`pre ++ x :: post` where every item of `pre` processes cleanly, `x` is novel,
and `x` either fails to format or fails to send, then the loop stops at `x`:
it has sent and appended exactly `pre`'s novel items, `x`'s identifier is not
appended, no item of `post` is reached, and the outer catch logs the error. -/
theorem processNodes_halt_eq (cid snapshot : String) (sendOk : Node → Bool)
    (pre : List Node) (x : Node) (post : List Node)
    (hf : ∀ n ∈ pre, jsIncludes snapshot (nodeIdOf n) = false →
      formatOk n = true)
    (hs : ∀ n ∈ pre, sendOk n = true)
    (hxn : jsIncludes snapshot (nodeIdOf x) = false)
    (hx : formatOk x = false ∨ sendOk x = false) :
    ∀ ledger : String,
      processNodes cid snapshot sendOk (pre ++ x :: post) ledger =
        ⟨(novelFilter snapshot pre).map (sendEventOf cid),
         skippedIds snapshot pre,
         some (ledger ++
           ledgerAppend ((novelFilter snapshot pre).map nodeIdOf)),
         true⟩ := by
  induction pre with
  | nil =>
    intro ledger
    simp only [List.nil_append]
    cases hfmt : formatOk x with
    | false =>
      obtain ⟨e, he⟩ := createReportEmbed_err x hfmt
      simp [processNodes, hxn, he, novelFilter, skippedIds, ledgerAppend]
    | true =>
      have hsx : sendOk x = false := by
        rcases hx with h | h
        · rw [h] at hfmt; exact absurd hfmt (by simp)
        · exact h
      have hok := createReportEmbed_ok x hfmt
      simp [processNodes, hxn, hok, hsx, novelFilter, skippedIds,
        ledgerAppend]
  | cons node rest ih =>
    intro ledger
    have hf' : ∀ n ∈ rest, jsIncludes snapshot (nodeIdOf n) = false →
        formatOk n = true := fun n hn => hf n (List.mem_cons_of_mem _ hn)
    have hs' : ∀ n ∈ rest, sendOk n = true :=
      fun n hn => hs n (List.mem_cons_of_mem _ hn)
    cases hj : jsIncludes snapshot (nodeIdOf node) with
    | true =>
      simp only [List.cons_append, processNodes, hj, if_true, List.append_eq]
      rw [ih hf' hs' ledger]
      simp [novelFilter, skippedIds, List.filter_cons, hj]
    | false =>
      have hfmt : formatOk node = true := hf node (List.mem_cons_self _ _) hj
      have hok := createReportEmbed_ok node hfmt
      have hsend : sendOk node = true := hs node (List.mem_cons_self _ _)
      simp only [List.cons_append, processNodes, hj, hok, hsend,
        Bool.false_eq_true, if_false, if_true, List.append_eq]
      rw [ih hf' hs']
      simp [novelFilter, skippedIds, List.filter_cons, hj, sendEventOf,
        ledgerAppend, String.append_assoc]

/-- Unconditional ledger shape: whatever happens inside a cycle's loop, the
ledger file afterwards is its prior content followed by exactly one line per
successfully sent item, in dispatch order. -/
theorem processNodes_ledger_eq (cid snapshot : String) (sendOk : Node → Bool)
    (nodes : List Node) :
    ∀ ledger : String,
      (processNodes cid snapshot sendOk nodes ledger).ledger =
        some (ledger ++ ledgerAppend
          (sentIds (processNodes cid snapshot sendOk nodes ledger))) := by
  induction nodes with
  | nil => intro ledger; simp [processNodes, sentIds, ledgerAppend]
  | cons node rest ih =>
    intro ledger
    cases hj : jsIncludes snapshot (nodeIdOf node) with
    | true =>
      simpa only [processNodes, hj, if_true, sentIds] using ih ledger
    | false =>
      cases hc : createReportEmbed node with
      | error e =>
        simp [processNodes, hj, hc, sentIds, ledgerAppend]
      | ok embed =>
        cases hsn : sendOk node with
        | false =>
          simp [processNodes, hj, hc, hsn, sentIds, ledgerAppend]
        | true =>
          have h := ih (ledger ++ nodeIdOf node ++ "\n")
          simp only [processNodes, hj, hc, hsn, Bool.false_eq_true, if_false,
            if_true, sentIds, List.map_cons] at h ⊢
          rw [h]
          simp [ledgerAppend, String.append_assoc]

/-- An already-contained item of the batch is logged as skipped. -/
theorem mem_skippedIds (snapshot : String) (nodes : List Node) (x : Node)
    (hx : x ∈ nodes) (hj : jsIncludes snapshot (nodeIdOf x) = true) :
    nodeIdOf x ∈ skippedIds snapshot nodes :=
  List.mem_map_of_mem _ (List.mem_filter.mpr ⟨hx, hj⟩)

/-- An identifier the snapshot contains never appears among the novel
identifiers of the batch. -/
theorem not_mem_novelIds (snapshot : String) (nodes : List Node) (s : String)
    (hj : jsIncludes snapshot s = true) :
    s ∉ (novelFilter snapshot nodes).map nodeIdOf := by
  intro hmem
  obtain ⟨n, hn, he⟩ := List.mem_map.mp hmem
  have h2 := (List.mem_filter.mp hn).2
  rw [he] at h2
  simp [hj] at h2

/-- Newline counting distributes over string append. -/
theorem lineCount_append (a b : String) :
    lineCount (a ++ b) = lineCount a + lineCount b := by
  simp [lineCount, String.data_append, List.count_append]

/-- Appending `k` newline-free identifiers adds exactly `k` lines. -/
theorem lineCount_ledgerAppend (ids : List String)
    (h : ∀ i ∈ ids, '\n' ∉ i.data) :
    lineCount (ledgerAppend ids) = ids.length := by
  induction ids with
  | nil => simp [ledgerAppend, lineCount]
  | cons x rest ih =>
    have hx : List.count '\n' x.data = 0 :=
      List.count_eq_zero.mpr (h x (List.mem_cons_self _ _))
    have h' : ∀ i ∈ rest, '\n' ∉ i.data :=
      fun i hi => h i (List.mem_cons_of_mem _ hi)
    show lineCount (x ++ "\n" ++ ledgerAppend rest) = rest.length + 1
    rw [lineCount_append, lineCount_append, ih h']
    have h1 : lineCount "\n" = 1 := rfl
    have h0 : lineCount x = 0 := hx
    rw [h1, h0]
    omega

/-- With an empty ledger snapshot every item with a non-empty identifier is
novel. -/
theorem novelFilter_empty (nodes : List Node)
    (h : ∀ n ∈ nodes, nodeIdOf n ≠ "") : novelFilter "" nodes = nodes := by
  apply List.filter_eq_self.mpr
  intro n hn
  simp [jsIncludes_empty _ (h n hn)]

/-- With an empty ledger snapshot no item with a non-empty identifier is
skipped. -/
theorem skippedIds_empty (nodes : List Node)
    (h : ∀ n ∈ nodes, nodeIdOf n ≠ "") : skippedIds "" nodes = [] := by
  unfold skippedIds
  rw [List.filter_eq_nil_iff.mpr]
  · rfl
  · intro n hn
    simp [jsIncludes_empty _ (h n hn)]

/-- The identifiers of the send events of a node list are the node
identifiers. -/
theorem sentIds_map (cid : String) (l : List Node) :
    (l.map (sendEventOf cid)).map (fun e => e.nodeId) = l.map nodeIdOf := by
  simp [sendEventOf]

/-! ## Claim theorems -/

/-- C7: for every severity value outside the five known categories,
formatting yields the fixed fallback label `-` and the fixed fallback colour
`0x000000`; both functions are total, so no error is possible. -/
theorem severityFallback (s : String)
    (hs : s ∉ ["None", "Low", "Medium", "High", "Critical"]) :
    getSeverityIcon s = "-" ∧ getSeverityColor s = 0x000000 := by
  simp only [List.mem_cons, List.not_mem_nil, or_false, not_or] at hs
  obtain ⟨h1, h2, h3, h4, h5⟩ := hs
  exact ⟨by simp [getSeverityIcon, h1, h2, h3, h4, h5],
         by simp [getSeverityColor, h1, h2, h3, h4, h5]⟩

/-- Witness for C7 at the concrete unrecognized severity `Unknown`. -/
theorem severityFallback_witness :
    "Unknown" ∉ ["None", "Low", "Medium", "High", "Critical"] ∧
      getSeverityIcon "Unknown" = "-" ∧ getSeverityColor "Unknown" = 0x000000 :=
  ⟨by decide, severityFallback "Unknown" (by decide)⟩

/-- C8: a failed feed fetch makes the cycle perform zero sends and zero
skips, leaves the ledger file unchanged, is logged by the outer catch
(the function returns normally, no crash), and a subsequent cycle run from
the resulting state behaves exactly as one run from the original state. -/
theorem fetchErrorLeavesStateUnchanged (cid msg : String)
    (ledgerFile : Option String) (sendOk : Node → Bool) (cid2 : String)
    (fetch2 : Except String (List Node)) (sendOk2 : Node → Bool) :
    (checkHacktivityReports cid (.error msg) ledgerFile sendOk).sent = [] ∧
    (checkHacktivityReports cid (.error msg) ledgerFile sendOk).skipped = [] ∧
    (checkHacktivityReports cid (.error msg) ledgerFile sendOk).ledger =
      ledgerFile ∧
    (checkHacktivityReports cid (.error msg) ledgerFile sendOk).errorLogged =
      true ∧
    checkHacktivityReports cid2 fetch2
      ((checkHacktivityReports cid (.error msg) ledgerFile sendOk).ledger)
      sendOk2 = checkHacktivityReports cid2 fetch2 ledgerFile sendOk2 :=
  ⟨rfl, rfl, rfl, rfl, rfl⟩

/-- C9: when `channel.txt` is absent, monitoring never starts: the interval
timer is never installed, the setup error is logged once by the catch block,
and no send is ever issued regardless of what the feed would return. -/
theorem noChannelNoMonitoring (cache : String → Bool)
    (fetchResult : Except String (List Node)) (ledgerFile : Option String)
    (sendOk : Node → Bool) :
    (startHacktivityMonitoring none cache fetchResult ledgerFile
      sendOk).monitoringStarted = false ∧
    monitorSends (startHacktivityMonitoring none cache fetchResult ledgerFile
      sendOk) = [] ∧
    (startHacktivityMonitoring none cache fetchResult ledgerFile
      sendOk).errorLogged = true :=
  ⟨rfl, rfl, rfl⟩

/-- C2 (code bug): the constructor calls `initializeFiles()` before
assigning `this.logFile`, so the existence check `fs.access(this.logFile)`
runs on `undefined` and always rejects; the catch branch then runs
`fs.writeFile(this.logFile, '')` (by which time the path is assigned) on
*every* startup.  An existing ledger is therefore truncated to empty —
initialisation is not idempotent — and `'Log file created'` is logged even
though the file already existed.  (When the file is absent the claimed
behaviour does hold: the file is created empty.) -/
theorem constructorTruncatesLedger :
    (constructorInit fsWithLedger).fs.files logPath = some "" ∧
    (constructorInit fsWithLedger).logCreatedLogged = true ∧
    (constructorInit fsBlank).fs.files logPath = some "" := by
  refine ⟨?_, rfl, ?_⟩ <;> simp [constructorInit, initFiles, fsAccessOk,
    fsWriteFile, fsWithLedger, fsBlank, logPath, channelPath]

/-- C1 counterexample: with an empty ledger and the batch `A, B` (both
novel, both valid) where the send for `A` rejects, the cycle performs zero
sends in total — item `B`, although perfectly sendable, is never attempted,
because the whole loop body sits inside one try/catch.  The claim as stated
requires the remaining item `B` to still be attempted and sent. -/
theorem sendFailureAbortsRemaining_cex :
    sentIds (checkHacktivityReports "chan" (.ok [nodeA, nodeB]) (some "")
      sendFailA) = [] ∧
    (checkHacktivityReports "chan" (.ok [nodeA, nodeB]) (some "")
      sendFailA).errorLogged = true ∧
    (checkHacktivityReports "chan" (.ok [nodeA, nodeB]) (some "")
      sendFailA).ledger = some "" := by
  decide

/-- C1 (amended): if the send for a novel item `x` fails, the error escapes
to the cycle's outer catch and the cycle aborts: the items before `x` that
were already sent remain sent and recorded, `x`'s identifier is *not*
appended to the ledger (so `x` is eligible again on the next cycle), and the
items after `x` are not attempted. -/
theorem sendFailureAbortsCycle (cid snapshot : String) (sendOk : Node → Bool)
    (pre : List Node) (x : Node) (post : List Node)
    (hf : ∀ n ∈ pre, jsIncludes snapshot (nodeIdOf n) = false →
      formatOk n = true)
    (hs : ∀ n ∈ pre, sendOk n = true)
    (hxn : jsIncludes snapshot (nodeIdOf x) = false)
    (hxf : formatOk x = true)
    (hxs : sendOk x = false)
    (hfresh : nodeIdOf x ∉ pre.map nodeIdOf) :
    (checkHacktivityReports cid (.ok (pre ++ x :: post)) (some snapshot)
      sendOk).errorLogged = true ∧
    (checkHacktivityReports cid (.ok (pre ++ x :: post)) (some snapshot)
      sendOk).sent = (novelFilter snapshot pre).map (sendEventOf cid) ∧
    (checkHacktivityReports cid (.ok (pre ++ x :: post)) (some snapshot)
      sendOk).ledger = some (snapshot ++
        ledgerAppend ((novelFilter snapshot pre).map nodeIdOf)) ∧
    nodeIdOf x ∉ (novelFilter snapshot pre).map nodeIdOf := by
  have h := processNodes_halt_eq cid snapshot sendOk pre x post hf hs hxn
    (Or.inr hxs) snapshot
  refine ⟨?_, ?_, ?_, ?_⟩
  · simp only [checkHacktivityReports]; rw [h]
  · simp only [checkHacktivityReports]; rw [h]
  · simp only [checkHacktivityReports]; rw [h]
  · intro hmem
    obtain ⟨n, hn, he⟩ := List.mem_map.mp hmem
    exact hfresh (he ▸ List.mem_map_of_mem nodeIdOf (List.mem_of_mem_filter hn))

/-- Witness for the amended C1: ledger empty, batch `A, B, C`, the send for
`B` rejects; the cycle sends `A` only, records `A` only, and aborts. -/
theorem sendFailureAbortsCycle_witness :
    (∀ n ∈ [nodeA], jsIncludes "" (nodeIdOf n) = false → formatOk n = true) ∧
    (∀ n ∈ [nodeA], sendFailB n = true) ∧
    jsIncludes "" (nodeIdOf nodeB) = false ∧
    formatOk nodeB = true ∧
    sendFailB nodeB = false ∧
    nodeIdOf nodeB ∉ [nodeA].map nodeIdOf ∧
    ((checkHacktivityReports "chan" (.ok ([nodeA] ++ nodeB :: [nodeC]))
        (some "") sendFailB).errorLogged = true ∧
      (checkHacktivityReports "chan" (.ok ([nodeA] ++ nodeB :: [nodeC]))
        (some "") sendFailB).sent =
          (novelFilter "" [nodeA]).map (sendEventOf "chan") ∧
      (checkHacktivityReports "chan" (.ok ([nodeA] ++ nodeB :: [nodeC]))
        (some "") sendFailB).ledger = some ("" ++
          ledgerAppend ((novelFilter "" [nodeA]).map nodeIdOf)) ∧
      nodeIdOf nodeB ∉ (novelFilter "" [nodeA]).map nodeIdOf) :=
  ⟨by decide, by decide, by decide, by decide, by decide, by decide,
   sendFailureAbortsCycle "chan" "" sendFailB [nodeA] nodeB [nodeC]
     (by decide) (by decide) (by decide) (by decide) (by decide) (by decide)⟩

/-- C3 counterexample: the batch consisting of one item whose identifier is
the empty string (trivially a batch with distinct identifiers) produces zero
sends against an empty ledger, because `''.includes('')` is `true` and the
item is skipped.  The claim as stated requires exactly one send. -/
theorem emptyIdZeroSends_cex :
    (checkHacktivityReports "chan" (.ok [nodeEmptyId]) (some "")
      sendAll).sent = [] ∧
    (checkHacktivityReports "chan" (.ok [nodeEmptyId]) (some "")
      sendAll).skipped = [""] ∧
    (checkHacktivityReports "chan" (.ok [nodeEmptyId]) (some "")
      sendAll).ledger = some "" := by
  decide

/-- C3 (amended, adding non-emptiness of the identifiers): with an empty
ledger and a batch of items with distinct *non-empty* identifiers, all of
which format and send successfully, the cycle sends exactly one notification
per item to the configured channel in fetched order, skips nothing, and the
ledger afterwards consists of exactly those identifiers, one per line, in
dispatch order. -/
theorem emptyLedgerBatchAllSent (cid : String) (nodes : List Node)
    (sendOk : Node → Bool)
    (hid : ∀ n ∈ nodes, nodeIdOf n ≠ "")
    (hnodup : (nodes.map nodeIdOf).Nodup)
    (hfmt : ∀ n ∈ nodes, formatOk n = true)
    (hsend : ∀ n ∈ nodes, sendOk n = true) :
    (checkHacktivityReports cid (.ok nodes) (some "") sendOk).sent =
      nodes.map (sendEventOf cid) ∧
    (checkHacktivityReports cid (.ok nodes) (some "") sendOk).skipped = [] ∧
    (checkHacktivityReports cid (.ok nodes) (some "") sendOk).ledger =
      some (ledgerAppend (nodes.map nodeIdOf)) ∧
    (checkHacktivityReports cid (.ok nodes) (some "") sendOk).errorLogged =
      false := by
  have h := processNodes_ok_eq cid "" sendOk nodes
    (fun n hn _ => hfmt n hn) hsend ""
  rw [novelFilter_empty nodes hid, skippedIds_empty nodes hid] at h
  refine ⟨?_, ?_, ?_, ?_⟩
  · simp only [checkHacktivityReports]; rw [h]
  · simp only [checkHacktivityReports]; rw [h]
  · simp only [checkHacktivityReports]; rw [h]; simp
  · simp only [checkHacktivityReports]; rw [h]

/-- Witness for the amended C3: the three-item batch `A, B, C` against an
empty ledger is sent in full, in order, and recorded in order. -/
theorem emptyLedgerBatchAllSent_witness :
    (∀ n ∈ [nodeA, nodeB, nodeC], nodeIdOf n ≠ "") ∧
    ([nodeA, nodeB, nodeC].map nodeIdOf).Nodup ∧
    (∀ n ∈ [nodeA, nodeB, nodeC], formatOk n = true) ∧
    (∀ n ∈ [nodeA, nodeB, nodeC], sendAll n = true) ∧
    ((checkHacktivityReports "chan" (.ok [nodeA, nodeB, nodeC]) (some "")
        sendAll).sent = [nodeA, nodeB, nodeC].map (sendEventOf "chan") ∧
      (checkHacktivityReports "chan" (.ok [nodeA, nodeB, nodeC]) (some "")
        sendAll).skipped = [] ∧
      (checkHacktivityReports "chan" (.ok [nodeA, nodeB, nodeC]) (some "")
        sendAll).ledger =
          some (ledgerAppend ([nodeA, nodeB, nodeC].map nodeIdOf)) ∧
      (checkHacktivityReports "chan" (.ok [nodeA, nodeB, nodeC]) (some "")
        sendAll).errorLogged = false) :=
  ⟨by decide, by decide, by decide, by decide,
   emptyLedgerBatchAllSent "chan" [nodeA, nodeB, nodeC] sendAll
     (by decide) (by decide) (by decide) (by decide)⟩

/-- C4: an item whose identifier is already recorded as a ledger line at the
start of the cycle is skipped: its identifier is logged as skipped, it is
never sent, its identifier is not appended again, the other novel items of
the batch are still sent in fetched order, and no error is logged. -/
theorem ledgerMemberSkipped (cid snapshot : String) (nodes : List Node)
    (x : Node) (sendOk : Node → Bool)
    (hf : ∀ n ∈ nodes, jsIncludes snapshot (nodeIdOf n) = false →
      formatOk n = true)
    (hs : ∀ n ∈ nodes, sendOk n = true)
    (hx : x ∈ nodes)
    (hmem : nodeIdOf x ∈ ledgerEntries snapshot) :
    nodeIdOf x ∈ (checkHacktivityReports cid (.ok nodes) (some snapshot)
      sendOk).skipped ∧
    nodeIdOf x ∉ sentIds (checkHacktivityReports cid (.ok nodes)
      (some snapshot) sendOk) ∧
    nodeIdOf x ∉ (novelFilter snapshot nodes).map nodeIdOf ∧
    (checkHacktivityReports cid (.ok nodes) (some snapshot) sendOk).sent =
      (novelFilter snapshot nodes).map (sendEventOf cid) ∧
    (checkHacktivityReports cid (.ok nodes) (some snapshot) sendOk).ledger =
      some (snapshot ++
        ledgerAppend ((novelFilter snapshot nodes).map nodeIdOf)) ∧
    (checkHacktivityReports cid (.ok nodes) (some snapshot)
      sendOk).errorLogged = false := by
  have hj := jsIncludes_of_mem_ledgerEntries snapshot (nodeIdOf x) hmem
  have h := processNodes_ok_eq cid snapshot sendOk nodes hf hs snapshot
  have h4 : (checkHacktivityReports cid (.ok nodes) (some snapshot)
      sendOk).sent = (novelFilter snapshot nodes).map (sendEventOf cid) := by
    simp only [checkHacktivityReports]; rw [h]
  have h1 : (checkHacktivityReports cid (.ok nodes) (some snapshot)
      sendOk).skipped = skippedIds snapshot nodes := by
    simp only [checkHacktivityReports]; rw [h]
  refine ⟨?_, ?_, not_mem_novelIds snapshot nodes _ hj, h4, ?_, ?_⟩
  · rw [h1]; exact mem_skippedIds snapshot nodes x hx hj
  · simp only [sentIds]
    rw [h4, sentIds_map]
    exact not_mem_novelIds snapshot nodes _ hj
  · simp only [checkHacktivityReports]; rw [h]
  · simp only [checkHacktivityReports]; rw [h]

/-- Witness for C4: ledger `B`, batch `A, B, C`: `B` is skipped, `A` and `C`
are sent in that order, the ledger gains exactly `A` and `C`. -/
theorem ledgerMemberSkipped_witness :
    (∀ n ∈ [nodeA, nodeB, nodeC], jsIncludes "B\n" (nodeIdOf n) = false →
      formatOk n = true) ∧
    (∀ n ∈ [nodeA, nodeB, nodeC], sendAll n = true) ∧
    nodeB ∈ [nodeA, nodeB, nodeC] ∧
    nodeIdOf nodeB ∈ ledgerEntries "B\n" ∧
    (nodeIdOf nodeB ∈ (checkHacktivityReports "chan"
        (.ok [nodeA, nodeB, nodeC]) (some "B\n") sendAll).skipped ∧
      nodeIdOf nodeB ∉ sentIds (checkHacktivityReports "chan"
        (.ok [nodeA, nodeB, nodeC]) (some "B\n") sendAll) ∧
      nodeIdOf nodeB ∉ (novelFilter "B\n" [nodeA, nodeB, nodeC]).map
        nodeIdOf ∧
      (checkHacktivityReports "chan" (.ok [nodeA, nodeB, nodeC])
        (some "B\n") sendAll).sent =
          (novelFilter "B\n" [nodeA, nodeB, nodeC]).map (sendEventOf "chan") ∧
      (checkHacktivityReports "chan" (.ok [nodeA, nodeB, nodeC])
        (some "B\n") sendAll).ledger = some ("B\n" ++
          ledgerAppend ((novelFilter "B\n" [nodeA, nodeB, nodeC]).map
            nodeIdOf)) ∧
      (checkHacktivityReports "chan" (.ok [nodeA, nodeB, nodeC])
        (some "B\n") sendAll).errorLogged = false) :=
  ⟨by decide, by decide, by decide, by decide,
   ledgerMemberSkipped "chan" "B\n" [nodeA, nodeB, nodeC] nodeB sendAll
     (by decide) (by decide) (by decide) (by decide)⟩

/-- C5 counterexample: `ZZZ` is a well-formed (hence `Intl`-accepted) but
unrecognized currency code; the cycle does *not* abort on an item carrying
it — the item is formatted and sent and no error is logged.  The claim as
stated requires the cycle to abort before sending that item. -/
theorem unrecognizedCurrencySends_cex :
    isWellFormedCurrencyCode "ZZZ" = true ∧
    sentIds (checkHacktivityReports "chan" (.ok [nodeZZZ]) (some "")
      sendAll) = ["Z"] ∧
    (checkHacktivityReports "chan" (.ok [nodeZZZ]) (some "")
      sendAll).errorLogged = false := by
  decide

/-- C5 (amended: the formatting error fires on a *missing or ill-formed*
currency code, not merely an unrecognized one): if a novel item's currency
code is absent or not three ASCII letters, `formatBounty` raises, the cycle
aborts before that item or any later item is sent, and the earlier items of
the batch that were already sent and recorded remain recorded. -/
theorem badCurrencyHaltsCycle (cid snapshot : String) (sendOk : Node → Bool)
    (pre : List Node) (x : Node) (post : List Node)
    (hf : ∀ n ∈ pre, jsIncludes snapshot (nodeIdOf n) = false →
      formatOk n = true)
    (hs : ∀ n ∈ pre, sendOk n = true)
    (hxn : jsIncludes snapshot (nodeIdOf x) = false)
    (hcur : ∀ c, x.team.currency = some c →
      isWellFormedCurrencyCode c = false) :
    formatOk x = false ∧
    (checkHacktivityReports cid (.ok (pre ++ x :: post)) (some snapshot)
      sendOk).errorLogged = true ∧
    (checkHacktivityReports cid (.ok (pre ++ x :: post)) (some snapshot)
      sendOk).sent = (novelFilter snapshot pre).map (sendEventOf cid) ∧
    (checkHacktivityReports cid (.ok (pre ++ x :: post)) (some snapshot)
      sendOk).ledger = some (snapshot ++
        ledgerAppend ((novelFilter snapshot pre).map nodeIdOf)) := by
  have hbad := formatOk_false_of_badCurrency x hcur
  have h := processNodes_halt_eq cid snapshot sendOk pre x post hf hs hxn
    (Or.inl hbad) snapshot
  refine ⟨hbad, ?_, ?_, ?_⟩
  · simp only [checkHacktivityReports]; rw [h]
  · simp only [checkHacktivityReports]; rw [h]
  · simp only [checkHacktivityReports]; rw [h]

/-- Witness for the amended C5: batch `A, N, C` where `N`'s currency is
missing: `A` is sent and recorded, the cycle aborts at `N`, `C` is never
reached, and `A` stays recorded. -/
theorem badCurrencyHaltsCycle_witness :
    (∀ n ∈ [nodeA], jsIncludes "" (nodeIdOf n) = false → formatOk n = true) ∧
    (∀ n ∈ [nodeA], sendAll n = true) ∧
    jsIncludes "" (nodeIdOf nodeNoCur) = false ∧
    (∀ c, nodeNoCur.team.currency = some c →
      isWellFormedCurrencyCode c = false) ∧
    (formatOk nodeNoCur = false ∧
      (checkHacktivityReports "chan" (.ok ([nodeA] ++ nodeNoCur :: [nodeC]))
        (some "") sendAll).errorLogged = true ∧
      (checkHacktivityReports "chan" (.ok ([nodeA] ++ nodeNoCur :: [nodeC]))
        (some "") sendAll).sent =
          (novelFilter "" [nodeA]).map (sendEventOf "chan") ∧
      (checkHacktivityReports "chan" (.ok ([nodeA] ++ nodeNoCur :: [nodeC]))
        (some "") sendAll).ledger = some ("" ++
          ledgerAppend ((novelFilter "" [nodeA]).map nodeIdOf))) :=
  ⟨by decide, by decide, by decide,
   by intro c hc; simp [nodeNoCur, teamNoCur] at hc,
   badCurrencyHaltsCycle "chan" "" sendAll [nodeA] nodeNoCur [nodeC]
     (by decide) (by decide) (by decide)
     (by intro c hc; simp [nodeNoCur, teamNoCur] at hc)⟩

/-- C6: the ledger is append-only across cycles: for any cycle run from a
present ledger file, the file afterwards is its prior content followed by
one line per successfully sent item in dispatch order (nothing is removed or
rewritten — the old content is a prefix of the new), and for newline-free
identifiers the line count grows by exactly the number of successful sends
of the cycle. -/
theorem ledgerAppendOnly (cid : String)
    (fetchResult : Except String (List Node)) (snapshot : String)
    (sendOk : Node → Bool) :
    (checkHacktivityReports cid fetchResult (some snapshot) sendOk).ledger =
      some (snapshot ++ ledgerAppend (sentIds (checkHacktivityReports cid
        fetchResult (some snapshot) sendOk))) ∧
    snapshot.data <+: (snapshot ++ ledgerAppend (sentIds
      (checkHacktivityReports cid fetchResult (some snapshot)
        sendOk))).data ∧
    ((∀ i ∈ sentIds (checkHacktivityReports cid fetchResult (some snapshot)
        sendOk), '\n' ∉ i.data) →
      lineCount (snapshot ++ ledgerAppend (sentIds (checkHacktivityReports
        cid fetchResult (some snapshot) sendOk))) =
          lineCount snapshot + (checkHacktivityReports cid fetchResult
            (some snapshot) sendOk).sent.length) := by
  refine ⟨?_, ?_, ?_⟩
  · cases fetchResult with
    | error e => simp [checkHacktivityReports, sentIds, ledgerAppend]
    | ok nodes =>
      simp only [checkHacktivityReports]
      exact processNodes_ledger_eq cid snapshot sendOk nodes snapshot
  · rw [String.data_append]
    exact List.prefix_append _ _
  · intro hnl
    rw [lineCount_append, lineCount_ledgerAppend _ hnl]
    simp [sentIds]

/-- Witness for C6 at a concrete run: ledger `X`, batch `A, B`, both sent;
the file afterwards is the old content plus two lines and the line count
grew by two. -/
theorem ledgerAppendOnly_witness :
    (∀ i ∈ sentIds (checkHacktivityReports "chan" (.ok [nodeA, nodeB])
      (some "X\n") sendAll), '\n' ∉ i.data) ∧
    (checkHacktivityReports "chan" (.ok [nodeA, nodeB]) (some "X\n")
      sendAll).ledger = some ("X\n" ++ ledgerAppend (sentIds
        (checkHacktivityReports "chan" (.ok [nodeA, nodeB]) (some "X\n")
          sendAll))) ∧
    lineCount ("X\n" ++ ledgerAppend (sentIds (checkHacktivityReports "chan"
      (.ok [nodeA, nodeB]) (some "X\n") sendAll))) =
        lineCount "X\n" + (checkHacktivityReports "chan" (.ok [nodeA, nodeB])
          (some "X\n") sendAll).sent.length :=
  ⟨by decide,
   (ledgerAppendOnly "chan" (.ok [nodeA, nodeB]) "X\n" sendAll).1,
   (ledgerAppendOnly "chan" (.ok [nodeA, nodeB]) "X\n" sendAll).2.2
     (by decide)⟩

/-- C10: ledger membership is substring containment on the whole ledger
text, not exact line membership: an item whose identifier occurs anywhere
inside the ledger content — here explicitly *not* as a recorded line of it —
is skipped without a send and without an append, while the cycle otherwise
proceeds without error. -/
theorem substringMembershipSkips (cid snapshot : String) (nodes : List Node)
    (x : Node) (sendOk : Node → Bool)
    (hf : ∀ n ∈ nodes, jsIncludes snapshot (nodeIdOf n) = false →
      formatOk n = true)
    (hs : ∀ n ∈ nodes, sendOk n = true)
    (hx : x ∈ nodes)
    (hsub : jsIncludes snapshot (nodeIdOf x) = true)
    (hnoentry : nodeIdOf x ∉ ledgerEntries snapshot) :
    nodeIdOf x ∈ (checkHacktivityReports cid (.ok nodes) (some snapshot)
      sendOk).skipped ∧
    nodeIdOf x ∉ sentIds (checkHacktivityReports cid (.ok nodes)
      (some snapshot) sendOk) ∧
    nodeIdOf x ∉ (novelFilter snapshot nodes).map nodeIdOf ∧
    (checkHacktivityReports cid (.ok nodes) (some snapshot)
      sendOk).errorLogged = false := by
  have h := processNodes_ok_eq cid snapshot sendOk nodes hf hs snapshot
  have h4 : (checkHacktivityReports cid (.ok nodes) (some snapshot)
      sendOk).sent = (novelFilter snapshot nodes).map (sendEventOf cid) := by
    simp only [checkHacktivityReports]; rw [h]
  have h1 : (checkHacktivityReports cid (.ok nodes) (some snapshot)
      sendOk).skipped = skippedIds snapshot nodes := by
    simp only [checkHacktivityReports]; rw [h]
  refine ⟨?_, ?_, not_mem_novelIds snapshot nodes _ hsub, ?_⟩
  · rw [h1]; exact mem_skippedIds snapshot nodes x hx hsub
  · simp only [sentIds]
    rw [h4, sentIds_map]
    exact not_mem_novelIds snapshot nodes _ hsub
  · simp only [checkHacktivityReports]; rw [h]

/-- Witness for C10: the ledger records only `1234`; the item with
identifier `23` — never recorded as an entry — is nevertheless skipped
because `'1234\n'.includes('23')` is true. -/
theorem substringMembershipSkips_witness :
    (∀ n ∈ [nodeSub], jsIncludes "1234\n" (nodeIdOf n) = false →
      formatOk n = true) ∧
    (∀ n ∈ [nodeSub], sendAll n = true) ∧
    nodeSub ∈ [nodeSub] ∧
    jsIncludes "1234\n" (nodeIdOf nodeSub) = true ∧
    nodeIdOf nodeSub ∉ ledgerEntries "1234\n" ∧
    (nodeIdOf nodeSub ∈ (checkHacktivityReports "chan" (.ok [nodeSub])
        (some "1234\n") sendAll).skipped ∧
      nodeIdOf nodeSub ∉ sentIds (checkHacktivityReports "chan"
        (.ok [nodeSub]) (some "1234\n") sendAll) ∧
      nodeIdOf nodeSub ∉ (novelFilter "1234\n" [nodeSub]).map nodeIdOf ∧
      (checkHacktivityReports "chan" (.ok [nodeSub]) (some "1234\n")
        sendAll).errorLogged = false) :=
  ⟨by decide, by decide, by decide, by decide, by decide,
   substringMembershipSkips "chan" "1234\n" [nodeSub] nodeSub sendAll
     (by decide) (by decide) (by decide) (by decide) (by decide)⟩
